import Mathlib

/-!
Verification of the adaptive practice-question core of `src/app.py`
(DSAT prep web service): the difficulty adjuster, the seen-question
tracker, the question selector of the `/start` and `/submit` routes,
the answer scorer of `/submit`, and the `format_questions` payload
builder.  Each Python function is shallowly embedded as an executable
Lean definition; the theorems below settle the specified properties.
-/

/-- Catalog entry, mirroring the `Question` SQLAlchemy model
(`src/app.py` lines 49-59).  `stimulus` and `answer_options` are
nullable columns.  `answer_options` holds in the source a JSON blob
whose keys become the choice labels; we embed it as the parsed result:
`none` stands for an absent or unparseable blob (the `try/except`
fallback in `format_questions`), `some ks` for a blob whose keys are
`ks`. -/
structure Question where
  id : Nat
  category : String
  subcategory : String
  difficulty : Int
  stimulus : Option String
  prompt : String
  correct_answer : String
  explanation : String
  answer_options : Option (List String)
deriving DecidableEq

/-- `adjust_difficulty` (`src/app.py` lines 107-113).  Python computes
`accuracy = correct / total` with real (float) division and compares
against the literals `0.8` and `0.4`; we embed the division exactly in
`ℚ` (`4/5` and `2/5`), which agrees with the IEEE double computation
for every total far below `10^15`. -/
def adjust_difficulty (current : Int) (correct : Nat) (total : Nat) : Int :=
  let accuracy : ℚ := (correct : ℚ) / (total : ℚ)
  if accuracy ≥ 4/5 then min (current + 1) 3
  else if accuracy ≤ 2/5 then max (current - 1) 1
  else current

/-- The unseen questions of a pool: the list comprehension
`[q for q in all_questions if not has_seen_question(session_id, q.id)]`
(`src/app.py` line 298, also line 355), with the seen-set of the
session given directly as a `Finset`. -/
def unseenOf (pool : List Question) (seen : Finset Nat) : List Question :=
  pool.filter (fun q => decide (q.id ∉ seen))

/-- What `random.sample(l, k)` guarantees when `k ≤ len(l)`: the result
has exactly `k` elements and every element is drawn from `l`.  The
selection theorems hold for every sampler with this property, which
abstracts the randomness away. -/
def SampleSpec (sample : List Question → Nat → List Question) : Prop :=
  ∀ l k, k ≤ l.length → (sample l k).length = k ∧ ∀ q ∈ sample l k, q ∈ l

/-- The batch selection of `/start` (`src/app.py` lines 298-299, and
identically `/submit` lines 355-356): filter the pool to unseen
questions, then `random.sample(unseen, min(5, len(unseen)))`. -/
def selectBatch (sample : List Question → Nat → List Question)
    (pool : List Question) (seen : Finset Nat) : List Question :=
  sample (unseenOf pool seen) (min 5 (unseenOf pool seen).length)

/-- One deterministic sampler satisfying `SampleSpec` (used to witness
the selection theorems on concrete inputs). -/
def takeSample (l : List Question) (k : Nat) : List Question := l.take k

/-- The `for q in questions: mark_question_seen(session_id, q.id)` loop
(`src/app.py` lines 301-302 and 358-359), acting on the seen-set of
the session. -/
def markAllSeen (seen : Finset Nat) (batch : List Question) : Finset Nat :=
  batch.foldl (fun s q => insert q.id s) seen

/-- The in-memory session store `SESSION_QUESTIONS_SEEN` (`src/app.py`
line 32): a Python dict from session id to a set of question ids,
embedded as a partial map. -/
abbrev Store := String → Option (Finset Nat)

/-- `get_or_create_session` (`src/app.py` lines 34-38), restricted to
its effect on `SESSION_QUESTIONS_SEEN`: `setdefault(session_id, set())`
inserts an empty set when the key is absent and leaves an existing
entry untouched.  (The Flask-session id generation is plumbing; the
session id is passed in.) -/
def get_or_create_session (store : Store) (sid : String) : Store :=
  fun k => if k = sid then some ((store sid).getD ∅) else store k

/-- `mark_question_seen` (`src/app.py` lines 40-41):
`SESSION_QUESTIONS_SEEN[session_id].add(question_id)`.  In Python a
missing key raises `KeyError` (in the app the key always exists, since
the handlers call `get_or_create_session` first); the embedding leaves
an absent entry absent. -/
def mark_question_seen (store : Store) (sid : String) (qid : Nat) : Store :=
  fun k => if k = sid then (store k).map (insert qid) else store k

/-- `has_seen_question` (`src/app.py` lines 43-44):
`question_id in SESSION_QUESTIONS_SEEN.get(session_id, set())`.
Returned together with the (unchanged) store. -/
def has_seen_question (store : Store) (sid : String) (qid : Nat) : Bool × Store :=
  (decide (qid ∈ (store sid).getD ∅), store)

/-- The mark-seen loop of the handlers lifted to the store. -/
def markBatchSeen (store : Store) (sid : String) (batch : List Question) : Store :=
  batch.foldl (fun st q => mark_question_seen st sid q.id) store

/-- The effect of the `/start` handler (`src/app.py` lines 289-302) on
the session store: `get_or_create_session` followed by marking every
question of the served batch seen. -/
def startSessionEffect (store : Store) (sid : String) (batch : List Question) : Store :=
  markBatchSeen (get_or_create_session store sid) sid batch

/-- The effect of the `/submit` handler (`src/app.py` lines 319-359) on
the session store: `get_or_create_session` followed by marking every
question of the next served batch seen. -/
def submitSessionEffect (store : Store) (sid : String) (nextBatch : List Question) : Store :=
  markBatchSeen (get_or_create_session store sid) sid nextBatch

/-- Store growth: every session entry present before is present after,
with a seen-set that is a superset of what it was. -/
def StoreLE (s t : Store) : Prop :=
  ∀ k v, s k = some v → ∃ w, t k = some w ∧ v ⊆ w

/-- A concrete six-question pool (distinct ids 1-6) used to witness
the selection theorems: with batch size 5, a first draw and a second
draw after marking exercise the no-repeat property non-vacuously. -/
def sixPool : List Question :=
  [⟨1, "m", "a", 2, none, "p", "A", "e", none⟩,
   ⟨2, "m", "a", 2, none, "p", "A", "e", none⟩,
   ⟨3, "m", "a", 2, none, "p", "A", "e", none⟩,
   ⟨4, "m", "a", 2, none, "p", "A", "e", none⟩,
   ⟨5, "m", "a", 2, none, "p", "A", "e", none⟩,
   ⟨6, "m", "a", 2, none, "p", "A", "e", none⟩]

/-- One entry of the `answers` list posted to `/submit` (`src/app.py`
lines 322-325).  `question_id` is `a.get("question_id")` (absent key
gives `None`, embedded as `none`); `user_answer` and `correct_answer`
are the already-stringified `str(a.get(...))` values.  Note the
correct answer is read from the request payload, not from the question
catalog. -/
structure Submission where
  question_id : Option Int
  user_answer : String
  correct_answer : String
deriving DecidableEq

/-- Row of the `answer_logs` table (`AnswerLog` model, `src/app.py`
lines 61-66). -/
structure AnswerLogRec where
  session_id : String
  question_id : Int
  is_correct : Bool
deriving DecidableEq

/-- The guard `if not q_id: continue` (`src/app.py` lines 327-328):
Python truthiness drops both an absent id (`None`) and the integer 0. -/
def qidPresent (a : Submission) : Bool :=
  match a.question_id with
  | none => false
  | some n => n != 0

/-- The AnswerLog record staged for one kept submission (`src/app.py`
lines 330-339): correctness is exact string equality of the two
payload fields. -/
def logOf (sid : String) (a : Submission) : AnswerLogRec :=
  { session_id := sid
    question_id := a.question_id.getD 0
    is_correct := a.user_answer == a.correct_answer }

/-- One iteration of the `for a in answers` loop of `/submit`
(`src/app.py` lines 322-339), threading the staged log list and the
running `correct_count`. -/
def scoreStep (sid : String) (acc : List AnswerLogRec × Nat) (a : Submission) :
    List AnswerLogRec × Nat :=
  if qidPresent a then
    (acc.1 ++ [logOf sid a],
     acc.2 + (if a.user_answer == a.correct_answer then 1 else 0))
  else acc

/-- The whole scoring loop of `/submit`: staged AnswerLog records and
the final `correct_count`. -/
def processAnswers (sid : String) (answers : List Submission) :
    List AnswerLogRec × Nat :=
  answers.foldl (scoreStep sid) ([], 0)

/-- The clamped total `max(1, len(answers))` passed to
`adjust_difficulty` (`src/app.py` line 346): it counts every posted
submission, dropped ones included. -/
def submitTotal (answers : List Submission) : Nat := max 1 answers.length

/-- The difficulty update of `/submit` (`src/app.py` lines 343-347). -/
def submitNewDifficulty (current : Int) (sid : String)
    (answers : List Submission) : Int :=
  adjust_difficulty current (processAnswers sid answers).2 (submitTotal answers)

/-- Lookup of the stored correct answer of a question id in the
catalog (the `questions` table), to compare the recorded correctness
of the scorer against the catalog content. -/
def catalogAnswer (catalog : List Question) (qid : Int) : Option String :=
  (catalog.find? (fun q => (q.id : Int) == qid)).map (fun q => q.correct_answer)

/-- One element of the `formatted` payload of `format_questions`
(`src/app.py` lines 154-174). -/
structure FormattedQuestion where
  id : Nat
  stimulus : String
  prompt : String
  difficulty : Int
  correct_answer : String
  explanation : String
  choices : List String
deriving DecidableEq

/-- `format_questions` (`src/app.py` lines 154-174): `stimulus or ""`
defaults a null stimulus, choices fall back to the A-D labels when
`answer_options` is absent or unparseable (see `Question`), and the
stored `correct_answer` and `explanation` are copied verbatim into the
payload. -/
def format_questions (qs : List Question) : List FormattedQuestion :=
  qs.map (fun q =>
    { id := q.id
      stimulus := q.stimulus.getD ""
      prompt := q.prompt
      difficulty := q.difficulty
      correct_answer := q.correct_answer
      explanation := q.explanation
      choices := q.answer_options.getD ["A", "B", "C", "D"] })

/-- The JSON body returned by `/start` (`src/app.py` lines 304-307). -/
structure StartPayload where
  difficulty : Int
  questions : List FormattedQuestion

/-- The `/start` response (`src/app.py` lines 293-307): the sampled
unseen batch, formatted. -/
def startResponse (sample : List Question → Nat → List Question)
    (pool : List Question) (seen : Finset Nat) (difficulty : Int) :
    StartPayload :=
  { difficulty := difficulty
    questions := format_questions (selectBatch sample pool seen) }

-- ---------------------------------------------------------------------
-- Theorems
-- ---------------------------------------------------------------------

/-- C1: for current difficulty in [1,3] and total ≥ 1,
`adjust_difficulty` returns `min (current+1) 3` when accuracy ≥ 0.8,
`max (current-1) 1` when accuracy ≤ 0.4, and `current` unchanged when
accuracy lies strictly between 0.4 and 0.8. -/
theorem adjust_difficulty_cases (current : Int) (correct total : Nat)
    (h1 : 1 ≤ current) (h3 : current ≤ 3) (ht : 1 ≤ total) :
    ((correct : ℚ) / (total : ℚ) ≥ 4/5 →
      adjust_difficulty current correct total = min (current + 1) 3) ∧
    ((correct : ℚ) / (total : ℚ) ≤ 2/5 →
      adjust_difficulty current correct total = max (current - 1) 1) ∧
    (2/5 < (correct : ℚ) / (total : ℚ) ∧ (correct : ℚ) / (total : ℚ) < 4/5 →
      adjust_difficulty current correct total = current) := by
  unfold adjust_difficulty
  refine ⟨fun h => ?_, fun h => ?_, fun h => ?_⟩
  · rw [if_pos h]
  · rw [if_neg ?_, if_pos h]
    intro hge
    have : (4 : ℚ)/5 ≤ 2/5 := le_trans hge h
    norm_num at this
  · rw [if_neg ?_, if_neg ?_]
    · exact fun hle => absurd h.1 (not_lt.mpr hle)
    · exact fun hge => absurd h.2 (not_lt.mpr hge)

/-- Witness for C1 at the values of the test table in the spec. -/
theorem adjust_difficulty_cases_witness :
    adjust_difficulty 2 9 10 = min (2 + 1) 3 :=
  (adjust_difficulty_cases 2 9 10 (by decide) (by decide) (by decide)).1
    (by norm_num)

/-- C6: for d in [1,3], t ≥ 1 and c ≤ t, `adjust_difficulty d c t`
lies in [1,3]. -/
theorem adjust_difficulty_range (d : Int) (c t : Nat)
    (hd1 : 1 ≤ d) (hd3 : d ≤ 3) (hc : c ≤ t) (ht : 1 ≤ t) :
    1 ≤ adjust_difficulty d c t ∧ adjust_difficulty d c t ≤ 3 := by
  unfold adjust_difficulty
  simp only [min_def, max_def]
  split_ifs <;> omega

/-- Witness for C6 at d = 2, c = 9, t = 10. -/
theorem adjust_difficulty_range_witness :
    1 ≤ adjust_difficulty 2 9 10 ∧ adjust_difficulty 2 9 10 ≤ 3 :=
  adjust_difficulty_range 2 9 10 (by decide) (by decide) (by decide) (by decide)

theorem mem_unseenOf {pool : List Question} {seen : Finset Nat} {q : Question} :
    q ∈ unseenOf pool seen ↔ q ∈ pool ∧ q.id ∉ seen := by
  simp [unseenOf, List.mem_filter]

theorem takeSample_spec : SampleSpec takeSample := by
  intro l k hk
  refine ⟨?_, ?_⟩
  · simp [takeSample, List.length_take, Nat.min_eq_left hk]
  · intro q hq
    exact List.take_subset k l hq

/-- C2: the batch selected by `/start` has exactly `min 5 |unseen|`
elements (hence at most that many), contains no question whose id is
in the seen-set, and is empty when every question of the pool has been
seen. -/
theorem start_batch_spec (sample : List Question → Nat → List Question)
    (pool : List Question) (seen : Finset Nat) (hs : SampleSpec sample) :
    (selectBatch sample pool seen).length = min 5 (unseenOf pool seen).length ∧
    (∀ q ∈ selectBatch sample pool seen, q.id ∉ seen) ∧
    ((∀ q ∈ pool, q.id ∈ seen) → selectBatch sample pool seen = []) := by
  obtain ⟨hlen, hmem⟩ :=
    hs (unseenOf pool seen) (min 5 (unseenOf pool seen).length) (min_le_right _ _)
  refine ⟨hlen, ?_, ?_⟩
  · intro q hq
    exact (mem_unseenOf.mp (hmem q hq)).2
  · intro hall
    have h0 : unseenOf pool seen = [] := by
      rw [List.eq_nil_iff_forall_not_mem]
      intro q hq
      exact (mem_unseenOf.mp hq).2 (hall q (mem_unseenOf.mp hq).1)
    rw [← List.length_eq_zero]
    unfold selectBatch
    rw [hlen, h0]
    simp

/-- Witness for C2: a two-question pool with one question already seen. -/
theorem start_batch_spec_witness :
    (selectBatch takeSample
        [⟨1, "math", "algebra", 2, none, "p1", "A", "e1", none⟩,
         ⟨2, "math", "algebra", 2, none, "p2", "B", "e2", none⟩] {2}).length =
      min 5 (unseenOf
        [⟨1, "math", "algebra", 2, none, "p1", "A", "e1", none⟩,
         ⟨2, "math", "algebra", 2, none, "p2", "B", "e2", none⟩] {2}).length ∧
    (∀ q ∈ selectBatch takeSample
        [⟨1, "math", "algebra", 2, none, "p1", "A", "e1", none⟩,
         ⟨2, "math", "algebra", 2, none, "p2", "B", "e2", none⟩] {2},
      q.id ∉ ({2} : Finset Nat)) ∧
    ((∀ q ∈ [⟨1, "math", "algebra", 2, none, "p1", "A", "e1", none⟩,
             (⟨2, "math", "algebra", 2, none, "p2", "B", "e2", none⟩ : Question)],
        q.id ∈ ({2} : Finset Nat)) →
      selectBatch takeSample
        [⟨1, "math", "algebra", 2, none, "p1", "A", "e1", none⟩,
         ⟨2, "math", "algebra", 2, none, "p2", "B", "e2", none⟩] {2} = []) :=
  start_batch_spec takeSample _ _ takeSample_spec

theorem subset_markAllSeen (seen : Finset Nat) (batch : List Question) :
    seen ⊆ markAllSeen seen batch := by
  induction batch generalizing seen with
  | nil => exact fun a ha => ha
  | cons q qs ih =>
    intro a ha
    exact ih (insert q.id seen) (Finset.mem_insert_of_mem ha)

theorem mem_markAllSeen_of_mem (seen : Finset Nat) (batch : List Question)
    (q : Question) (hq : q ∈ batch) : q.id ∈ markAllSeen seen batch := by
  induction batch generalizing seen with
  | nil => cases hq
  | cons p ps ih =>
    rcases List.mem_cons.mp hq with h | h
    · subst h
      exact subset_markAllSeen _ ps (Finset.mem_insert_self _ _)
    · exact ih _ h

/-- C5: once every id of a first selected batch is marked seen, a
second selection over the same pool returns ids disjoint from the
first batch: no question id is served twice to the same session. -/
theorem select_no_repeat (sample sample2 : List Question → Nat → List Question)
    (pool : List Question) (seen : Finset Nat)
    (hs : SampleSpec sample) (hs2 : SampleSpec sample2) :
    ∀ q2 ∈ selectBatch sample2 pool (markAllSeen seen (selectBatch sample pool seen)),
      ∀ q1 ∈ selectBatch sample pool seen, q2.id ≠ q1.id := by
  intro q2 hq2 q1 hq1 heq
  obtain ⟨-, hmem2⟩ :=
    hs2 (unseenOf pool (markAllSeen seen (selectBatch sample pool seen)))
      (min 5 (unseenOf pool (markAllSeen seen (selectBatch sample pool seen))).length)
      (min_le_right _ _)
  have h2 := (mem_unseenOf.mp (hmem2 q2 hq2)).2
  exact h2 (heq ▸ mem_markAllSeen_of_mem seen (selectBatch sample pool seen) q1 hq1)

/-- Witness for C5: in the six-question pool with batch size 5, the
second selection is forced onto the sixth question, whose id differs
from every member of the first batch — here checked against the first
one. -/
theorem select_no_repeat_witness :
    (⟨6, "m", "a", 2, none, "p", "A", "e", none⟩ : Question).id ≠
      (⟨1, "m", "a", 2, none, "p", "A", "e", none⟩ : Question).id :=
  select_no_repeat takeSample takeSample sixPool ∅
    takeSample_spec takeSample_spec
    ⟨6, "m", "a", 2, none, "p", "A", "e", none⟩ (by decide)
    ⟨1, "m", "a", 2, none, "p", "A", "e", none⟩ (by decide)

theorem storeLE_refl (s : Store) : StoreLE s s :=
  fun _ v hv => ⟨v, hv, Finset.Subset.refl v⟩

theorem storeLE_trans {s t u : Store} (h1 : StoreLE s t) (h2 : StoreLE t u) :
    StoreLE s u := by
  intro k v hv
  obtain ⟨w, hw, hvw⟩ := h1 k v hv
  obtain ⟨x, hx, hwx⟩ := h2 k w hw
  exact ⟨x, hx, Finset.Subset.trans hvw hwx⟩

theorem get_or_create_storeLE (store : Store) (sid : String) :
    StoreLE store (get_or_create_session store sid) := by
  intro k v hv
  unfold get_or_create_session
  by_cases hk : k = sid
  · subst hk
    rw [if_pos rfl, hv]
    exact ⟨v, rfl, Finset.Subset.refl v⟩
  · rw [if_neg hk]
    exact ⟨v, hv, Finset.Subset.refl v⟩

theorem mark_question_seen_storeLE (store : Store) (sid : String) (qid : Nat) :
    StoreLE store (mark_question_seen store sid qid) := by
  intro k v hv
  unfold mark_question_seen
  by_cases hk : k = sid
  · rw [if_pos hk, hv]
    exact ⟨insert qid v, rfl, Finset.subset_insert qid v⟩
  · rw [if_neg hk]
    exact ⟨v, hv, Finset.Subset.refl v⟩

theorem markBatchSeen_storeLE (store : Store) (sid : String) (batch : List Question) :
    StoreLE store (markBatchSeen store sid batch) := by
  induction batch generalizing store with
  | nil => exact storeLE_refl store
  | cons q qs ih =>
    exact storeLE_trans (mark_question_seen_storeLE store sid q.id)
      (ih (mark_question_seen store sid q.id))

/-- C7: the seen-set only grows.  Every operation of the core —
`get_or_create_session`, `mark_question_seen`, `has_seen_question`, and
the session-store effects of the `/start` and `/submit` handlers —
leaves every session entry a superset of what it was; none removes an
id or clears a set. -/
theorem seen_set_monotone :
    (∀ (store : Store) (sid : String),
      StoreLE store (get_or_create_session store sid)) ∧
    (∀ (store : Store) (sid : String) (qid : Nat),
      StoreLE store (mark_question_seen store sid qid)) ∧
    (∀ (store : Store) (sid : String) (qid : Nat),
      StoreLE store (has_seen_question store sid qid).2) ∧
    (∀ (store : Store) (sid : String) (batch : List Question),
      StoreLE store (startSessionEffect store sid batch)) ∧
    (∀ (store : Store) (sid : String) (batch : List Question),
      StoreLE store (submitSessionEffect store sid batch)) := by
  refine ⟨get_or_create_storeLE, mark_question_seen_storeLE,
    fun store _ _ => storeLE_refl store, ?_, ?_⟩
  · intro store sid batch
    exact storeLE_trans (get_or_create_storeLE store sid)
      (markBatchSeen_storeLE (get_or_create_session store sid) sid batch)
  · intro store sid batch
    exact storeLE_trans (get_or_create_storeLE store sid)
      (markBatchSeen_storeLE (get_or_create_session store sid) sid batch)

/-- C8: `mark_question_seen` is an idempotent insert — applying it
twice with the same session id and question id produces exactly the
same store as applying it once. -/
theorem mark_seen_idempotent (store : Store) (sid : String) (qid : Nat) :
    mark_question_seen (mark_question_seen store sid qid) sid qid =
      mark_question_seen store sid qid := by
  funext k
  by_cases hk : k = sid
  · simp only [mark_question_seen, if_pos hk]
    cases store k with
    | none => rfl
    | some v => simp [Finset.insert_idem]
  · simp [mark_question_seen, hk]

theorem processAnswers_foldl (sid : String) (answers : List Submission)
    (acc : List AnswerLogRec × Nat) :
    answers.foldl (scoreStep sid) acc =
      (acc.1 ++ (answers.filter qidPresent).map (logOf sid),
       acc.2 + ((answers.filter qidPresent).filter
         (fun a => a.user_answer == a.correct_answer)).length) := by
  induction answers generalizing acc with
  | nil => simp
  | cons a as ih =>
    rw [List.foldl_cons, ih]
    by_cases ha : qidPresent a
    · by_cases hc : a.user_answer == a.correct_answer
      · simp [scoreStep, ha, hc, List.filter_cons]
        omega
      · simp [scoreStep, ha, hc, List.filter_cons]
    · simp [scoreStep, ha, List.filter_cons]

/-- C3 (amended): a submission with a missing question id is silently
dropped — it produces no AnswerLog record and does not increment the
correct count, and exactly one record is staged per submission with a
present id — but it IS counted in the total used for accuracy, which
is `max 1 (length answers)` over all posted submissions. -/
theorem submit_drop_missing_id (sid : String) (answers : List Submission)
    (current : Int) :
    (processAnswers sid answers).1 = (answers.filter qidPresent).map (logOf sid) ∧
    (processAnswers sid answers).2 =
      ((answers.filter qidPresent).filter
        (fun a => a.user_answer == a.correct_answer)).length ∧
    submitNewDifficulty current sid answers =
      adjust_difficulty current (processAnswers sid answers).2
        (max 1 answers.length) := by
  have h := processAnswers_foldl sid answers ([], 0)
  refine ⟨?_, ?_, rfl⟩
  · unfold processAnswers
    rw [h]
    simp
  · unfold processAnswers
    rw [h]
    simp

/-- C3 counterexample: with one missing-id submission and one valid
correct submission, the dropped entry still counts in the total: the
code divides 1 correct by total 2 (difficulty stays 2), while the
claim's total of 1 counted submission would give accuracy 1 and raise
the difficulty to 3. -/
theorem submit_total_counts_dropped :
    submitTotal [⟨none, "A", "A"⟩, ⟨some 1, "A", "A"⟩] = 2 ∧
    (processAnswers "s" [⟨none, "A", "A"⟩, ⟨some 1, "A", "A"⟩]).1.length = 1 ∧
    (processAnswers "s" [⟨none, "A", "A"⟩, ⟨some 1, "A", "A"⟩]).2 = 1 ∧
    submitNewDifficulty 2 "s" [⟨none, "A", "A"⟩, ⟨some 1, "A", "A"⟩] = 2 ∧
    adjust_difficulty 2 1 1 = 3 := by
  refine ⟨rfl, rfl, rfl, ?_, ?_⟩
  · norm_num [submitNewDifficulty, adjust_difficulty, submitTotal,
      processAnswers, scoreStep, qidPresent, logOf]
  · norm_num [adjust_difficulty]

/-- C4 (amended): the correctness recorded in every staged AnswerLog
equals exact string equality between the submitted user answer and the
correct-answer field of the same submission payload — not the catalog
entry. -/
theorem scorer_uses_payload_answer (sid : String) (answers : List Submission)
    (l : AnswerLogRec) (hl : l ∈ (processAnswers sid answers).1) :
    ∃ a ∈ answers, qidPresent a = true ∧
      a.question_id = some l.question_id ∧
      l.is_correct = (a.user_answer == a.correct_answer) := by
  have h := processAnswers_foldl sid answers ([], 0)
  unfold processAnswers at hl
  rw [h] at hl
  simp only [List.nil_append, List.mem_map, List.mem_filter] at hl
  obtain ⟨a, ⟨hmem, hpres⟩, rfl⟩ := hl
  refine ⟨a, hmem, hpres, ?_, rfl⟩
  rcases hq : a.question_id with _ | n
  · rw [qidPresent, hq] at hpres
    cases hpres
  · simp [logOf, hq]

/-- Witness for C4 (amended) at a single kept submission. -/
theorem scorer_uses_payload_answer_witness :
    ∃ a ∈ [(⟨some 1, "A", "B"⟩ : Submission)], qidPresent a = true ∧
      a.question_id = some (logOf "s" ⟨some 1, "A", "B"⟩).question_id ∧
      (logOf "s" ⟨some 1, "A", "B"⟩).is_correct =
        (a.user_answer == a.correct_answer) :=
  scorer_uses_payload_answer "s" [⟨some 1, "A", "B"⟩]
    (logOf "s" ⟨some 1, "A", "B"⟩) (by decide)

/-- C4 counterexample: the scorer never consults the catalog: a
submission whose payload correct_answer matches the user answer is
recorded correct even though the catalog stores a different correct
answer ("B") for that question id. -/
theorem scorer_ignores_catalog :
    (processAnswers "s" [⟨some 1, "A", "A"⟩]).1 =
      [{ session_id := "s", question_id := 1, is_correct := true }] ∧
    catalogAnswer [⟨1, "math", "algebra", 2, none, "q", "B", "expl", none⟩] 1 =
      some "B" ∧
    (("A" : String) == "B") = false := by
  refine ⟨?_, ?_, ?_⟩ <;> decide

/-- C10: a submission whose question id is present but equal to 0 is
dropped exactly like one with a missing id — Python falsiness, not a
None test: no AnswerLog record and no contribution to the correct
count, identical to the missing-id outcome. -/
theorem submit_zero_id_dropped :
    processAnswers "s" [⟨some 0, "A", "A"⟩] = ([], 0) ∧
    processAnswers "s" [⟨none, "A", "A"⟩] = ([], 0) ∧
    qidPresent ⟨some 0, "A", "A"⟩ = qidPresent ⟨none, "A", "A"⟩ := by
  refine ⟨?_, ?_, ?_⟩ <;> decide

/-- C9: the payload built by `format_questions` — and embedded
unchanged by `/start` in its response — carries for each served
question the stored `correct_answer` and `explanation` verbatim,
before any answer has been submitted. -/
theorem format_questions_verbatim (qs : List Question) :
    ((format_questions qs).map
        (fun f => (f.id, f.correct_answer, f.explanation)) =
      qs.map (fun q => (q.id, q.correct_answer, q.explanation))) ∧
    ∀ (sample : List Question → Nat → List Question) (pool : List Question)
      (seen : Finset Nat) (d : Int),
      (startResponse sample pool seen d).questions =
        format_questions (selectBatch sample pool seen) := by
  refine ⟨?_, fun _ _ _ _ => rfl⟩
  simp [format_questions, List.map_map]
